import Mathlib

/-!
# Verification of the Network-Enumeration-Tool front-end (`Recon.py`)

A shallow embedding of the parts of `src/Recon.py` that the specification
talks about:

* the Python string primitives the script relies on (`str.strip`,
  substring containment, `str.split`, `str.partition`), modelled on
  `List Char`;
* the last-target store (`load_last_ip` / `save_last_ip`);
* the scan catalog and the argument-list construction in `run_scan`;
* the streaming line classifier of `run_scan` (progress markers, port
  lines, OS/service lines, script lines, noise suppression, logging);
* `validate_ip`, together with a faithful model of the string-parsing
  fragment of CPython 3.11's `ipaddress` module (`ip_address`,
  `ip_network(..., strict=False)`) that it delegates to.

Machine text is modelled as `List Char`; `String` values are converted via
`String.data` at the interface.  Python's `str.strip()` strips Unicode
whitespace; here only the ASCII whitespace characters are modelled, which
is faithful on all inputs appearing in the claims.
-/

/-! ## Python string primitives -/

/-- ASCII whitespace, as stripped by Python's `str.strip()` (the Unicode
whitespace code points are not modelled; none occur in the claims). -/
def isPySpace (c : Char) : Bool :=
  c == ' ' || c == '\t' || c == '\n' || c == '\r' || c == '\x0b' || c == '\x0c'

/-- Python `str.strip()`: remove leading and trailing whitespace. -/
def pyStrip (l : List Char) : List Char :=
  ((l.dropWhile isPySpace).reverse.dropWhile isPySpace).reverse

/-- Python `c in s` for a single character. -/
def hasChar (c : Char) : List Char → Bool
  | [] => false
  | d :: rest => d == c || hasChar c rest

/-- Test whether `pat` is a contiguous prefix of `l`. -/
def prefixOfChars : List Char → List Char → Bool
  | [], _ => true
  | _ :: _, [] => false
  | a :: as, b :: bs => a == b && prefixOfChars as bs

/-- Python `pat in s`: `pat` occurs as a contiguous substring of `l`. -/
def containsSub (pat : List Char) : List Char → Bool
  | [] => prefixOfChars pat []
  | c :: rest => prefixOfChars pat (c :: rest) || containsSub pat rest

/-- Python `s.split(sep)` for a one-character separator.  Like Python,
the result is never empty: `"".split("/") == [""]`. -/
def splitOnChar (sep : Char) : List Char → List (List Char)
  | [] => [[]]
  | c :: rest =>
    if c == sep then [] :: splitOnChar sep rest
    else
      match splitOnChar sep rest with
      | [] => [[]]
      | g :: gs => (c :: g) :: gs

/-- Python `s.partition(sep)` for a one-character separator: the part
before the first occurrence, whether the separator occurred, and the part
after it. -/
def pyPartition (sep : Char) : List Char → List Char × Bool × List Char
  | [] => ([], false, [])
  | c :: rest =>
    if c == sep then ([], true, rest)
    else
      match pyPartition sep rest with
      | (pre, found, post) => (c :: pre, found, post)

/-- ASCII decimal digit (`str.isascii() and str.isdigit()` in CPython's
octet/prefix checks restrict exactly to these). -/
def isAsciiDigit (c : Char) : Bool := '0' ≤ c && c ≤ '9'

/-- Value of a string of decimal digits (Python `int(s, 10)`). -/
def natOfDigits (l : List Char) : Nat :=
  l.foldl (fun a c => 10 * a + (c.toNat - '0'.toNat)) 0

/-! ## Last-target store (`load_last_ip` / `save_last_ip`)

`Recon.py` lines 56-64.  The store file `.last_target` is modelled as a
three-state value: it may be absent, present with some content, or present
but failing on read (for example a `PermissionError` raised by `open`);
`os.path.exists` answers `true` in the last case.  `load_last_ip` is
fallible Python code, so it is embedded with `Except`: `Except.error`
marks an uncaught exception escaping to the caller. -/

inductive StoreFile where
  | absent : StoreFile
  | present : List Char → StoreFile
  | unreadable : StoreFile
deriving DecidableEq

/-- Model of `save_last_ip(ip)`: overwrite the store file with exactly `ip`
(`f.write(ip)`, no added newline). -/
def save_last_ip (ip : List Char) (_fs : StoreFile) : StoreFile :=
  StoreFile.present ip

/-- Model of `load_last_ip()`: if the file exists, return `f.read().strip()`;
otherwise return `None`.  An I/O error while reading an existing file is
not caught anywhere in `Recon.py` and propagates. -/
def load_last_ip : StoreFile → Except Unit (Option (List Char))
  | StoreFile.absent => Except.ok none
  | StoreFile.present c => Except.ok (some (pyStrip c))
  | StoreFile.unreadable => Except.error ()

/-! ## Scan catalog and command construction -/

/-- One entry of the `SCANS` table (`Recon.py` lines 19-50). -/
structure ScanEntry where
  key : String
  name : String
  command : List String
  description : String

/-- The `SCANS` table. -/
def SCANS : List ScanEntry :=
  [ { key := "1", name := "Host Discovery (Ping Scan)", command := ["nmap", "-sn"],
      description := "Checks which hosts are alive without scanning ports." }
  , { key := "2", name := "Quick Port Scan", command := ["nmap"],
      description := "Scans the most common 1000 TCP ports." }
  , { key := "3", name := "Full Port Scan", command := ["nmap", "-p-"],
      description := "Scans all 65535 TCP ports." }
  , { key := "4", name := "Service & Version Detection", command := ["nmap", "-sV", "-sC"],
      description := "Detects service versions and runs default scripts." }
  , { key := "5", name := "OS Detection", command := ["nmap", "-O"],
      description := "Attempts to identify the target operating system." }
  , { key := "6", name := "Stealth Mode (SYN Scan)", command := ["nmap", "-sS", "-Pn"],
      description := "Scans without completing TCP connections. (Usually requires sudo/root)" } ]

/-- From `Recon.py` line 91:
`command = scan_command + ["--stats-every", "3s", target]`. -/
def buildCommand (scan_command : List String) (target : String) : List String :=
  scan_command ++ ["--stats-every", "3s", target]

/-! ## The streaming line classifier of `run_scan`

`Recon.py` lines 117-149.  Each line read from the merged child output is
stripped; empty lines are skipped; every surviving line is appended to the
log; then the first matching rule of the chain fires:

1. `re.search(r"(\d+\.\d+)% done", clean_line)` — update the progress
   task, print nothing (`continue`);
2. `re.match(r"^\d+/(tcp|udp)", clean_line)` — print as `PORT FOUND`;
3. `"OS details:" in clean_line or "Service Info:" in clean_line`;
4. `clean_line.startswith("|")`;
5. otherwise print dim, unless `"Stats:" in clean_line` (suppressed).

The two regexes are embedded as maximal-munch scanners, which agrees with
Python's backtracking engine on these patterns: a shorter candidate for
`\d+` always leaves the next character a digit, which can match neither
`\.`, `/` nor `%`, so greedy matching without backtracking is exact, and
`searchProgress` takes the leftmost match like `re.search`. -/

/-- The literal characters `% done` following the float in the progress
regex. -/
def pctDoneLit : List Char := ['%', ' ', 'd', 'o', 'n', 'e']

/-- Attempt of `(\d+\.\d+)% done` anchored at the start of `l`; returns
the text of capture group 1. -/
def matchProgressAt (l : List Char) : Option (List Char) :=
  let d1 := l.takeWhile isAsciiDigit
  if d1.isEmpty then none
  else
    match l.dropWhile isAsciiDigit with
    | '.' :: r2 =>
      let d2 := r2.takeWhile isAsciiDigit
      if d2.isEmpty then none
      else if prefixOfChars pctDoneLit (r2.dropWhile isAsciiDigit) then
        some (d1 ++ '.' :: d2)
      else none
    | _ => none

/-- Model of `re.search(r"(\d+\.\d+)% done", l)`: leftmost match, returning
capture group 1. -/
def searchProgress : List Char → Option (List Char)
  | [] => none
  | c :: rest =>
    match matchProgressAt (c :: rest) with
    | some g => some g
    | none => searchProgress rest

/-- Python `float(g)` for a capture of the form `digits.digits`, as an
exact rational (the binary rounding of Python floats is not modelled; the
claims only involve exactly representable values such as `45.00`). -/
def floatOfGroup (g : List Char) : ℚ :=
  let d1 := g.takeWhile isAsciiDigit
  match g.dropWhile isAsciiDigit with
  | '.' :: d2 => mkRat (natOfDigits d1 * 10 ^ d2.length + natOfDigits d2) (10 ^ d2.length)
  | _ => (natOfDigits d1 : ℚ)

/-- Model of `re.match(r"^\d+/(tcp|udp)", l)`: digits, a slash, then `tcp` or
`udp`, anchored at the start. -/
def portMatch (l : List Char) : Bool :=
  !(l.takeWhile isAsciiDigit).isEmpty &&
    match l.dropWhile isAsciiDigit with
    | '/' :: rest =>
      prefixOfChars ['t', 'c', 'p'] rest || prefixOfChars ['u', 'd', 'p'] rest
    | _ => false

/-- Python `"OS details:" in l or "Service Info:" in l`. -/
def osServiceMatch (l : List Char) : Bool :=
  containsSub ("OS details:".data) l || containsSub ("Service Info:".data) l

/-- Python `l.startswith("|")`. -/
def startsWithPipe (l : List Char) : Bool :=
  match l with
  | '|' :: _ => true
  | _ => false

/-- Python `"Stats:" in l`. -/
def statsMatch (l : List Char) : Bool :=
  containsSub ("Stats:".data) l

/-- A line rendered to the interactive display, tagged with the style the
classifier chose (the rich markup around it is not modelled; the claims
only concern which lines are rendered). -/
inductive Rendered where
  | portFound : List Char → Rendered
  | osService : List Char → Rendered
  | script : List Char → Rendered
  | plain : List Char → Rendered
deriving DecidableEq

/-- The mutable state of one `run_scan` invocation: the `completed` value
of the rich progress task, the lines written to the log file, and the
lines rendered to the display, both in order. -/
structure RunState where
  completed : ℚ
  log : List (List Char)
  displayed : List Rendered
deriving DecidableEq

/-- State at the top of the read loop: `progress.add_task("Scanning...",
total=100)` starts the task with `completed = 0`, the log file is fresh,
nothing rendered. -/
def initState : RunState :=
  { completed := 0, log := [], displayed := [] }

/-- One iteration of `for line in process.stdout` (`Recon.py`
lines 118-149). -/
def processLine (st : RunState) (line : List Char) : RunState :=
  let clean := pyStrip line
  if clean.isEmpty then st
  else
    let st1 : RunState := { st with log := st.log ++ [clean] }
    match searchProgress clean with
    | some g => { st1 with completed := floatOfGroup g }
    | none =>
      if portMatch clean then
        { st1 with displayed := st1.displayed ++ [Rendered.portFound clean] }
      else if osServiceMatch clean then
        { st1 with displayed := st1.displayed ++ [Rendered.osService clean] }
      else if startsWithPipe clean then
        { st1 with displayed := st1.displayed ++ [Rendered.script clean] }
      else if statsMatch clean then st1
      else
        { st1 with displayed := st1.displayed ++ [Rendered.plain clean] }

/-- The whole read loop over the child's output stream. -/
def runScanLines (lines : List (List Char)) : RunState :=
  lines.foldl processLine initState

/-- The value the progress indicator renders for a task with
`total = 100`: rich's `Task.percentage` is
`min(100, max(0, completed / total * 100))`.  (The rich library is a
third-party dependency of `Recon.py`; only this clamping is needed
here.) -/
def taskPercentage (completed : ℚ) : ℚ :=
  min 100 (max 0 completed)

/-- The text printed when the child exits non-zero (`Recon.py`
line 155, markup kept verbatim). -/
def failureMessage : String :=
  "[bold red]Scan failed.[/bold red] Run as sudo/admin for advanced scans."

/-- The text printed when the child exits zero (`Recon.py` line 157). -/
def successMessage : String :=
  "[bold green]Scan complete![/bold green]"

/-- Result of one `run_scan` invocation, after `process.wait()`:
the final state (with the unconditional
`progress.update(task, completed=100)` of line 152 applied), whether the
outcome was reported as success (`process.returncode != 0` decides the
branch at line 154), and the message printed.  `run_scan` returns
normally in both branches; the surrounding menu loop resumes. -/
structure ScanOutcome where
  state : RunState
  success : Bool
  message : String
deriving DecidableEq

/-- Model of `run_scan` from the start of the read loop to the final report, as a
function of the child's output lines and exit status. -/
def run_scan (lines : List (List Char)) (returncode : Int) : ScanOutcome :=
  let st := runScanLines lines
  let stF : RunState := { st with completed := 100 }
  { state := stF
  , success := returncode == 0
  , message := if returncode != 0 then failureMessage else successMessage }

/-! ## Helper lemmas about the scanners -/

theorem takeWhile_append_stop {p : Char → Bool} {l1 l2 : List Char} {c : Char}
    (h1 : ∀ x ∈ l1, p x = true) (hc : p c = false) :
    (l1 ++ c :: l2).takeWhile p = l1 := by
  induction l1 with
  | nil => simp [List.takeWhile, hc]
  | cons a as ih =>
    have ha : p a = true := h1 a (List.mem_cons_self a as)
    simp only [List.cons_append, List.takeWhile_cons, ha, if_true]
    rw [ih (fun x hx => h1 x (List.mem_cons_of_mem a hx))]

theorem dropWhile_append_stop {p : Char → Bool} {l1 l2 : List Char} {c : Char}
    (h1 : ∀ x ∈ l1, p x = true) (hc : p c = false) :
    (l1 ++ c :: l2).dropWhile p = c :: l2 := by
  induction l1 with
  | nil => simp [List.dropWhile, hc]
  | cons a as ih =>
    have ha : p a = true := h1 a (List.mem_cons_self a as)
    simp only [List.cons_append, List.dropWhile_cons, ha, if_true]
    exact ih (fun x hx => h1 x (List.mem_cons_of_mem a hx))

theorem prefixOfChars_self (l : List Char) : prefixOfChars l l = true := by
  induction l with
  | nil => rfl
  | cons a as ih => simp [prefixOfChars, ih]

theorem isEmpty_false_of_ne_nil {l : List Char} (h : l ≠ []) : l.isEmpty = false := by
  cases l with
  | nil => exact absurd rfl h
  | cons a as => rfl

theorem matchProgressAt_exact {d1 d2 : List Char}
    (h1 : d1 ≠ []) (h2 : ∀ c ∈ d1, isAsciiDigit c = true)
    (h3 : d2 ≠ []) (h4 : ∀ c ∈ d2, isAsciiDigit c = true) :
    matchProgressAt (d1 ++ '.' :: (d2 ++ pctDoneLit)) = some (d1 ++ '.' :: d2) := by
  have hdot : isAsciiDigit '.' = false := rfl
  have hpct : isAsciiDigit '%' = false := rfl
  have htake1 : (d1 ++ '.' :: (d2 ++ pctDoneLit)).takeWhile isAsciiDigit = d1 :=
    takeWhile_append_stop h2 hdot
  have hdrop1 : (d1 ++ '.' :: (d2 ++ pctDoneLit)).dropWhile isAsciiDigit = '.' :: (d2 ++ pctDoneLit) :=
    dropWhile_append_stop h2 hdot
  have hpd : d2 ++ pctDoneLit = d2 ++ '%' :: [' ', 'd', 'o', 'n', 'e'] := rfl
  have htake2 : (d2 ++ pctDoneLit).takeWhile isAsciiDigit = d2 := by
    rw [hpd]; exact takeWhile_append_stop h4 hpct
  have hdrop2 : (d2 ++ pctDoneLit).dropWhile isAsciiDigit = pctDoneLit := by
    rw [hpd]; exact dropWhile_append_stop h4 hpct
  unfold matchProgressAt
  simp only [htake1, hdrop1, htake2, hdrop2, isEmpty_false_of_ne_nil h1,
    isEmpty_false_of_ne_nil h3, Bool.false_eq_true, if_false, prefixOfChars_self, if_true]

theorem searchProgress_of_matchAt {l g : List Char} (h : matchProgressAt l = some g) :
    searchProgress l = some g := by
  cases l with
  | nil => exact Option.noConfusion h
  | cons c rest => simp [searchProgress, h]

/-! ## Claim theorems for the classifier -/

/-- C1: a line whose stripped form is a float immediately followed by
`% done` updates the progress value to that float (the exact decimal
value `d1.d2`), is written to the log, and is not rendered to the
display. -/
theorem progress_marker_consumed (st : RunState) (line d1 d2 : List Char)
    (h1 : d1 ≠ []) (h2 : ∀ c ∈ d1, isAsciiDigit c = true)
    (h3 : d2 ≠ []) (h4 : ∀ c ∈ d2, isAsciiDigit c = true)
    (h5 : pyStrip line = d1 ++ '.' :: (d2 ++ pctDoneLit)) :
    processLine st line =
      { st with
        completed := mkRat (natOfDigits d1 * 10 ^ d2.length + natOfDigits d2) (10 ^ d2.length)
        log := st.log ++ [pyStrip line] } := by
  have hne : d1 ++ '.' :: (d2 ++ pctDoneLit) ≠ [] := by
    cases d1 with
    | nil => exact absurd rfl h1
    | cons a as => simp
  have hsearch := searchProgress_of_matchAt (matchProgressAt_exact h1 h2 h3 h4)
  have hdot : isAsciiDigit '.' = false := rfl
  have htake1 : (d1 ++ '.' :: d2).takeWhile isAsciiDigit = d1 :=
    takeWhile_append_stop h2 hdot
  have hdrop1 : (d1 ++ '.' :: d2).dropWhile isAsciiDigit = '.' :: d2 :=
    dropWhile_append_stop h2 hdot
  unfold processLine
  rw [h5]
  simp only [isEmpty_false_of_ne_nil hne, Bool.false_eq_true, if_false, hsearch]
  unfold floatOfGroup
  simp only [htake1, hdrop1]

theorem progress_marker_consumed_witness :
    processLine initState ("45.00% done".data) =
      { completed := 45, log := [("45.00% done".data)], displayed := [] } := by
  have h := progress_marker_consumed initState ("45.00% done".data) ("45".data) ("00".data)
    (by decide) (by decide) (by decide) (by decide) (by decide)
  rw [h]
  decide

/-- C2: in every iteration of the read loop, a line that is non-empty
after stripping has exactly its stripped form appended to the log,
whatever classification branch fires; a line that is empty after
stripping changes nothing (neither log nor display). -/
theorem every_line_logged (st : RunState) (line : List Char) :
    (pyStrip line ≠ [] → (processLine st line).log = st.log ++ [pyStrip line])
    ∧ (pyStrip line = [] → processLine st line = st) := by
  constructor
  · intro h
    unfold processLine
    simp only [isEmpty_false_of_ne_nil h, Bool.false_eq_true, if_false]
    cases hs : searchProgress (pyStrip line) with
    | some g => rfl
    | none =>
      by_cases h2 : portMatch (pyStrip line) = true
      · simp [h2]
      · by_cases h3 : osServiceMatch (pyStrip line) = true
        · simp [h2, h3]
        · by_cases h4 : startsWithPipe (pyStrip line) = true
          · simp [h2, h3, h4]
          · by_cases h5 : statsMatch (pyStrip line) = true
            · simp [h2, h3, h4, h5]
            · simp [h2, h3, h4, h5]
  · intro h
    unfold processLine
    simp only [h, List.isEmpty_nil, if_true]

theorem every_line_logged_witness :
    (processLine initState ("Nmap scan report for 10.0.0.1".data)).log
        = initState.log ++ [pyStrip ("Nmap scan report for 10.0.0.1".data)]
    ∧ processLine initState ("   \n".data) = initState := by
  exact ⟨(every_line_logged initState ("Nmap scan report for 10.0.0.1".data)).1 (by decide),
    (every_line_logged initState ("   \n".data)).2 (by decide)⟩

/-- C3: within one `run_scan` invocation the progress task starts at
`completed = 0`; after processing any stream of lines the value the
progress indicator shows lies in `[0, 100]` (rich's `Task.percentage`
clamps the task value); and after `process.wait()` the code
unconditionally forces `completed = 100`, whatever the last parsed marker
was. -/
theorem progress_state_bounds (lines : List (List Char)) (rc : Int) :
    initState.completed = 0
    ∧ 0 ≤ taskPercentage (runScanLines lines).completed
    ∧ taskPercentage (runScanLines lines).completed ≤ 100
    ∧ (run_scan lines rc).state.completed = 100 := by
  refine ⟨rfl, ?_, ?_, rfl⟩
  · exact le_min (by norm_num) (le_max_left 0 _)
  · exact min_le_left 100 _

/-- C5: after the stream is exhausted and the child waited on,
`run_scan` reports success exactly when the exit status is zero; any
non-zero status produces the failure message, which carries the
`sudo/admin` privilege hint; `run_scan` returns normally either way, so
the menu loop resumes. -/
theorem exit_status_reporting (lines : List (List Char)) (rc : Int) :
    ((run_scan lines rc).success = true ↔ rc = 0)
    ∧ (rc ≠ 0 → (run_scan lines rc).message = failureMessage)
    ∧ (rc = 0 → (run_scan lines rc).message = successMessage)
    ∧ containsSub ("sudo/admin".data) (failureMessage.data) = true := by
  refine ⟨?_, ?_, ?_, by decide⟩
  · show (rc == 0) = true ↔ rc = 0
    exact beq_iff_eq
  · intro h
    show (if (rc != 0) = true then failureMessage else successMessage) = failureMessage
    simp [bne_iff_ne, h]
  · intro h
    show (if (rc != 0) = true then failureMessage else successMessage) = successMessage
    simp [h]

theorem exit_status_reporting_witness :
    (run_scan [] 1).message = failureMessage
    ∧ (run_scan [] 0).message = successMessage := by
  exact ⟨(exit_status_reporting [] 1).2.1 (by decide),
    (exit_status_reporting [] 0).2.2.1 rfl⟩

/-- C7: a non-empty line containing `Stats:` that no earlier rule
matched is written to the log and nothing is rendered for it. -/
theorem stats_line_suppressed (st : RunState) (line : List Char)
    (h0 : pyStrip line ≠ [])
    (h1 : statsMatch (pyStrip line) = true)
    (h2 : searchProgress (pyStrip line) = none)
    (h3 : portMatch (pyStrip line) = false)
    (h4 : osServiceMatch (pyStrip line) = false)
    (h5 : startsWithPipe (pyStrip line) = false) :
    processLine st line = { st with log := st.log ++ [pyStrip line] } := by
  unfold processLine
  simp only [isEmpty_false_of_ne_nil h0, Bool.false_eq_true, if_false, h2, h3, h4, h5, h1,
    if_true]

theorem stats_line_suppressed_witness :
    processLine initState ("Stats: 10 hosts".data) =
      { completed := initState.completed
        log := [("Stats: 10 hosts".data)]
        displayed := [] } := by
  exact stats_line_suppressed initState ("Stats: 10 hosts".data)
    (by decide) (by decide) (by decide) (by decide) (by decide) (by decide)

/-- C8: the argument list handed to the child process is exactly the
profile's base arguments, then the two fixed elements `--stats-every` and
`3s`, then the target as the final element. -/
theorem command_layout (scan_command : List String) (target : String) :
    buildCommand scan_command target
      = scan_command ++ ["--stats-every", "3s"] ++ [target]
    ∧ (buildCommand scan_command target).getLast? = some target := by
  constructor
  · simp [buildCommand]
  · show (scan_command ++ ["--stats-every", "3s", target]).getLast? = some target
    rw [show scan_command ++ ["--stats-every", "3s", target]
        = (scan_command ++ ["--stats-every", "3s"]) ++ [target] by simp]
    exact List.getLast?_concat _

/-! ## Last-target store: round-trip and failure behaviour -/

/-- C6 counterexample: saving the target `" 1.2.3.4"` (leading space)
and loading it back returns `"1.2.3.4"`, a different string, because
`load_last_ip` applies `.strip()` to the file content — so the
round-trip is not byte-for-byte. -/
theorem save_load_not_identity :
    load_last_ip (save_last_ip (" 1.2.3.4".data) StoreFile.absent)
      = Except.ok (some ("1.2.3.4".data))
    ∧ ((" 1.2.3.4".data == "1.2.3.4".data) = false) := by
  constructor
  · rfl
  · decide

/-- C6 (amended): `save_last_ip(t)` followed by `load_last_ip()`
returns `t.strip()`; in particular it returns exactly `t` whenever `t`
carries no leading or trailing whitespace (true of every validated
target). -/
theorem save_load_roundtrip (t : List Char) (fs : StoreFile) :
    load_last_ip (save_last_ip t fs) = Except.ok (some (pyStrip t))
    ∧ (pyStrip t = t → load_last_ip (save_last_ip t fs) = Except.ok (some t)) := by
  refine ⟨rfl, ?_⟩
  intro h
  show Except.ok (some (pyStrip t)) = Except.ok (some t)
  rw [h]

theorem save_load_roundtrip_witness :
    load_last_ip (save_last_ip ("192.168.1.1".data) StoreFile.absent)
      = Except.ok (some ("192.168.1.1".data)) :=
  (save_load_roundtrip ("192.168.1.1".data) StoreFile.absent).2 (by decide)

/-- C9 counterexample: an I/O error while reading an existing store
file is not treated as "no last target": `load_last_ip` only guards
non-existence (`os.path.exists`), so the exception from `open`/`read`
propagates (the result is `Except.error`, not `Except.ok none`). -/
theorem load_error_not_absent :
    load_last_ip StoreFile.unreadable = Except.error () := rfl

/-- C9 (amended): only the file-not-present case yields the absent
value; a present file is read and stripped; a read failure on an existing
file escapes `load_last_ip` uncaught. -/
theorem load_failure_policy :
    load_last_ip StoreFile.absent = Except.ok none
    ∧ (∀ c, load_last_ip (StoreFile.present c) = Except.ok (some (pyStrip c)))
    ∧ load_last_ip StoreFile.unreadable = Except.error () :=
  ⟨rfl, fun _ => rfl, rfl⟩

/-! ## `validate_ip` and the `ipaddress` string-parsing model

`Recon.py` lines 66-74 delegate to CPython's `ipaddress` module
(version 3.11):

```
if "/" in ip: ipaddress.ip_network(ip, strict=False)
else:         ipaddress.ip_address(ip)
```

The definitions below embed the string-parsing fragment of that module,
read from `Lib/ipaddress.py`: `IPv4Address._parse_octet` (ASCII digits,
at most 3, no leading zeros, value at most 255), the 4-octet split,
the rejection of `/` inside an address, IPv6 colon-splitting with one
`::` run, 1-4 hex digit hextets, the IPv4-style suffix, the `%scope`
split, `_prefix_from_prefix_string` (ASCII digits, value bounded by the
family's maximum) and, for IPv4 networks only, dotted netmask/hostmask
strings (`_prefix_from_ip_string`).  `ip_address` tries IPv4 then IPv6;
`ip_network` tries `IPv4Network` then `IPv6Network`, splitting on `/`
with at most two parts; `strict=False` skips only the host-bits check,
which cannot fail. -/

/-- ASCII hex digit (`_BaseV6._HEX_DIGITS`). -/
def isHexDigitChar (c : Char) : Bool :=
  isAsciiDigit c || ('a' ≤ c && c ≤ 'f') || ('A' ≤ c && c ≤ 'F')

/-- CPython `IPv4Address._parse_octet` accepts: non-empty, ASCII digits only, at
most 3 characters, no leading zero (a single `0` is allowed), value at
most 255. -/
def octetOk (l : List Char) : Bool :=
  !l.isEmpty && l.all isAsciiDigit && decide (l.length ≤ 3)
    && (match l with
        | '0' :: rest => rest.isEmpty
        | _ => true)
    && decide (natOfDigits l ≤ 255)

/-- CPython `IPv4Address._ip_int_from_string` accepts: exactly 4 dot-separated
valid octets (an empty string splits into one part and is rejected by
the count check, as in CPython). -/
def ipv4CoreOk (l : List Char) : Bool :=
  (splitOnChar '.' l).length == 4 && (splitOnChar '.' l).all octetOk

/-- CPython `IPv4Address(addr_str)` on a string: rejects any `/`, then parses. -/
def ipv4AddrOk (l : List Char) : Bool :=
  !(hasChar '/' l) && ipv4CoreOk l

/-- The 32-bit value of a (valid) dotted quad. -/
def ipv4Val (l : List Char) : Nat :=
  (splitOnChar '.' l).foldl (fun a o => 256 * a + natOfDigits o) 0

/-- CPython `_BaseV6._parse_hextet`: ASCII hex digits, at most 4 (an empty
hextet fails CPython's `int('', 16)`). -/
def hextetOk (l : List Char) : Bool :=
  !l.isEmpty && l.all isHexDigitChar && decide (l.length ≤ 4)

/-- The `::`-placement logic of `_BaseV6._ip_int_from_string`, applied
to the colon-separated parts (after any IPv4-suffix replacement): at
most 9 parts; at most one empty interior part (the `::` skip); an empty
first/last part only adjacent to the skip; with a skip, at least one
zero group must actually be skipped; without one, exactly 8 parts.  All
parts counted as hextets must be valid. -/
def ipv6PartsOk (parts : List (List Char)) : Bool :=
  decide (parts.length ≤ 9) &&
  (let p0 := parts.headD ['x']
   let pl := parts.getLastD ['x']
   let interior := parts.dropLast.drop 1
   match (interior.filter List.isEmpty).length with
   | 0 =>
     decide (parts.length = 8) && !p0.isEmpty && !pl.isEmpty && parts.all hextetOk
   | 1 =>
     let skipIdx := interior.findIdx List.isEmpty + 1
     let hi0 := skipIdx
     let lo0 := parts.length - skipIdx - 1
     (if p0.isEmpty then decide (hi0 = 1) else true) &&
     (if pl.isEmpty then decide (lo0 = 1) else true) &&
     (let hiF := if p0.isEmpty then 0 else hi0
      let loF := if pl.isEmpty then 0 else lo0
      decide (hiF + loF ≤ 7) &&
      (parts.take hiF).all hextetOk &&
      (parts.drop (parts.length - loF)).all hextetOk)
   | _ => false)

/-- CPython `_BaseV6._ip_int_from_string` on the address part (scope already
removed): at least 3 colon-separated parts; a final part containing `.`
must parse as an IPv4 address and is replaced by two hextets (their
values cannot affect acceptance, so `0` stands in for them). -/
def ipv6CoreOk (l : List Char) : Bool :=
  let parts := splitOnChar ':' l
  decide (3 ≤ parts.length) &&
  (let lp := parts.getLastD []
   if hasChar '.' lp then
     ipv4AddrOk lp && ipv6PartsOk (parts.dropLast ++ [['0'], ['0']])
   else ipv6PartsOk parts)

/-- CPython `IPv6Address(addr_str)` on a string: rejects any `/`; splits a
`%scope` suffix at the first `%` (the scope must be non-empty and free
of `%`); parses the rest. -/
def ipv6AddrOk (l : List Char) : Bool :=
  !(hasChar '/' l) &&
  (match pyPartition '%' l with
   | (addr, found, scope) =>
     (if found then !scope.isEmpty && !(hasChar '%' scope) else true) && ipv6CoreOk addr)

/-- CPython `ipaddress.ip_address(l)` succeeds (IPv4 tried first, then IPv6). -/
def ip_address_ok (l : List Char) : Bool :=
  ipv4AddrOk l || ipv6AddrOk l

/-- CPython `_prefix_from_prefix_string`: ASCII digits only (so non-empty, no
sign, no whitespace), value at most the family's maximum prefix
length.  CPython puts no limit on the digit count, so `024` and
`0000000024` are accepted. -/
def prefixStrOk (maxLen : Nat) (l : List Char) : Bool :=
  !l.isEmpty && l.all isAsciiDigit && decide (natOfDigits l ≤ maxLen)

/-- Test that `v` consists of `k` one-bits followed by `w - k` zero-bits for some
`k` (`_prefix_from_ip_int`; the all-ones and all-zero words count). -/
def isContiguousMask (v : Nat) (w : Nat) : Bool :=
  (List.range (w + 1)).any (fun k => v == 2 ^ w - 2 ^ (w - k))

/-- CPython `IPv4Network._make_netmask` on a string: a prefix length, or a
dotted quad that is a netmask or (after inversion, `^ ALL_ONES`) a
hostmask (`_prefix_from_ip_string`). -/
def ipv4MaskOk (l : List Char) : Bool :=
  prefixStrOk 32 l ||
    (ipv4CoreOk l &&
      (isContiguousMask (ipv4Val l) 32 ||
        isContiguousMask ((ipv4Val l) ^^^ (2 ^ 32 - 1)) 32))

/-- CPython `IPv4Network(l, strict=False)` on a string: split on `/` (at most
one permitted), address part via `IPv4Address`, mask part via
`_make_netmask`; a missing mask defaults to `/32`. -/
def ipv4NetworkOk (l : List Char) : Bool :=
  match splitOnChar '/' l with
  | [a] => ipv4AddrOk a
  | [a, m] => ipv4AddrOk a && ipv4MaskOk m
  | _ => false

/-- CPython `IPv6Network(l, strict=False)` on a string: address part via
`IPv6Address` (scopes included), mask part restricted to a prefix
length — `IPv6Network._make_netmask` has no dotted-mask fallback. -/
def ipv6NetworkOk (l : List Char) : Bool :=
  match splitOnChar '/' l with
  | [a] => ipv6AddrOk a
  | [a, m] => ipv6AddrOk a && prefixStrOk 128 m
  | _ => false

/-- CPython `ipaddress.ip_network(l, strict=False)` succeeds. -/
def ip_network_ok (l : List Char) : Bool :=
  ipv4NetworkOk l || ipv6NetworkOk l

/-- Model of `validate_ip` (`Recon.py` lines 66-74). -/
def validate_ip (ip : String) : Bool :=
  if hasChar '/' ip.data then ip_network_ok ip.data else ip_address_ok ip.data

/-- Formalisation of the spec's words (§4.1, §8 and the glossary's
"CIDR: ... `address/prefix-length`"): the string is CIDR notation,
i.e. an address, one `/`, and a numeric prefix length in range for the
address's family. -/
def specCIDROk (l : List Char) : Bool :=
  match splitOnChar '/' l with
  | [a, p] => (ipv4AddrOk a && prefixStrOk 32 p) || (ipv6AddrOk a && prefixStrOk 128 p)
  | _ => false

/-- Formalisation of the claimed acceptance condition: `s` parses as a
single IPv4/IPv6 address or as CIDR `address/prefix` notation. -/
def specValidTarget (s : String) : Bool :=
  ip_address_ok s.data || specCIDROk s.data

/-- The further shape `validate_ip` accepts beyond `specValidTarget`:
an IPv4 address, one `/`, and a dotted-quad netmask or hostmask. -/
def v4MaskFormOk (l : List Char) : Bool :=
  match splitOnChar '/' l with
  | [a, m] =>
    ipv4AddrOk a &&
      (ipv4CoreOk m &&
        (isContiguousMask (ipv4Val m) 32 ||
          isContiguousMask ((ipv4Val m) ^^^ (2 ^ 32 - 1)) 32))
  | _ => false

/-- The amended acceptance condition. -/
def specValidTargetAmended (s : String) : Bool :=
  ip_address_ok s.data || specCIDROk s.data || v4MaskFormOk s.data

/-! ## Helper lemmas about `splitOnChar` -/

theorem splitOnChar_ne_nil (sep : Char) (l : List Char) : splitOnChar sep l ≠ [] := by
  cases l with
  | nil => simp [splitOnChar]
  | cons c rest =>
    unfold splitOnChar
    by_cases hc : (c == sep) = true
    · simp [hc]
    · rw [if_neg hc]
      cases hsp : splitOnChar sep rest with
      | nil => simp
      | cons g gs => simp

theorem splitOnChar_of_not_has {sep : Char} {l : List Char} (h : hasChar sep l = false) :
    splitOnChar sep l = [l] := by
  induction l with
  | nil => rfl
  | cons c rest ih =>
    unfold hasChar at h
    rw [Bool.or_eq_false_iff] at h
    unfold splitOnChar
    rw [if_neg (by rw [h.1]; exact Bool.false_ne_true), ih h.2]

theorem splitOnChar_len_ge_two {sep : Char} {l : List Char} (h : hasChar sep l = true) :
    2 ≤ (splitOnChar sep l).length := by
  induction l with
  | nil => exact Bool.noConfusion h
  | cons c rest ih =>
    unfold splitOnChar
    by_cases hc : (c == sep) = true
    · rw [if_pos hc]
      cases hsp : splitOnChar sep rest with
      | nil => exact absurd hsp (splitOnChar_ne_nil sep rest)
      | cons g gs => simp
    · rw [if_neg hc]
      unfold hasChar at h
      rw [Bool.or_eq_true_iff] at h
      rcases h with h | h
      · exact absurd h hc
      · have h2 := ih h
        cases hsp : splitOnChar sep rest with
        | nil => exact absurd hsp (splitOnChar_ne_nil sep rest)
        | cons g gs =>
          rw [hsp] at h2
          simpa using h2

/-- Boolean regrouping used to compare `ip_network_ok` with the
spec-side disjunction on a two-part split. -/
theorem bool_mask_regroup (A B P Q C : Bool) :
    ((A && (P || C)) || (B && Q)) = (((A && P) || (B && Q)) || (A && C)) := by
  cases A <;> cases B <;> cases P <;> cases Q <;> cases C <;> rfl

/-- On strings containing a slash, the network parser accepts exactly
the CIDR shapes plus the IPv4 dotted-mask shapes. -/
theorem ip_network_ok_eq_cidr_or_mask {l : List Char} (h : hasChar '/' l = true) :
    ip_network_ok l = (specCIDROk l || v4MaskFormOk l) := by
  have h2 := splitOnChar_len_ge_two h
  unfold ip_network_ok ipv4NetworkOk ipv6NetworkOk specCIDROk v4MaskFormOk
  cases hsplit : splitOnChar '/' l with
  | nil => rfl
  | cons a gs =>
    cases gs with
    | nil =>
      rw [hsplit] at h2
      exact absurd h2 (by simp)
    | cons m gs2 =>
      cases gs2 with
      | nil =>
        show ((ipv4AddrOk a && ipv4MaskOk m) || (ipv6AddrOk a && prefixStrOk 128 m))
          = (((ipv4AddrOk a && prefixStrOk 32 m) || (ipv6AddrOk a && prefixStrOk 128 m))
            || (ipv4AddrOk a && (ipv4CoreOk m &&
                (isContiguousMask (ipv4Val m) 32 ||
                  isContiguousMask ((ipv4Val m) ^^^ (2 ^ 32 - 1)) 32))))
        unfold ipv4MaskOk
        exact bool_mask_regroup _ _ _ _ _
      | cons x xs => rfl

/-- C4 counterexample: `validate_ip` accepts the dotted-netmask form
`10.0.0.0/255.255.255.0`, which is neither a single address nor CIDR
`address/prefix` notation, so the claimed "if and only if" fails. -/
theorem validate_ip_beyond_spec :
    validate_ip "10.0.0.0/255.255.255.0" = true
    ∧ specValidTarget "10.0.0.0/255.255.255.0" = false := by
  constructor
  · decide
  · decide

/-- C4 (amended): `validate_ip(s)` is true iff `s` parses as a
single IPv4/IPv6 address, as CIDR `address/prefix` notation, or — for
IPv4 only — as `address/mask` with a dotted-quad netmask or hostmask;
with the claim's example verdicts. -/
theorem validate_ip_characterisation :
    (∀ s : String, validate_ip s = specValidTargetAmended s)
    ∧ validate_ip "192.168.1.1" = true
    ∧ validate_ip "10.0.0.0/24" = true
    ∧ validate_ip "not-an-ip" = false
    ∧ validate_ip "999.1.1.1" = false := by
  refine ⟨?_, by decide, by decide, by decide, by decide⟩
  intro s
  unfold validate_ip specValidTargetAmended
  by_cases hs : hasChar '/' s.data = true
  · rw [if_pos hs]
    have hv4 : ipv4AddrOk s.data = false := by
      unfold ipv4AddrOk; rw [hs]; rfl
    have hv6 : ipv6AddrOk s.data = false := by
      unfold ipv6AddrOk; rw [hs]; rfl
    have haddr : ip_address_ok s.data = false := by
      unfold ip_address_ok; rw [hv4, hv6]; rfl
    rw [haddr, ip_network_ok_eq_cidr_or_mask hs]
    simp [Bool.or_assoc]
  · rw [if_neg hs]
    rw [Bool.not_eq_true] at hs
    have hsplit := splitOnChar_of_not_has hs
    have hcidr : specCIDROk s.data = false := by
      unfold specCIDROk; rw [hsplit]
    have hmask : v4MaskFormOk s.data = false := by
      unfold v4MaskFormOk; rw [hsplit]
    rw [hcidr, hmask]
    simp

/-- C10: non-strict network parsing lets `validate_ip` accept a CIDR
string whose address has host bits set below the prefix: the `/24`
block around `192.168.1.5`, whose low 8 bits are `5 ≠ 0`, so
`192.168.1.5` is not the network address of that block. -/
theorem nonstrict_host_bits_accepted :
    validate_ip "192.168.1.5/24" = true
    ∧ ipv4Val ("192.168.1.5".data) % 2 ^ (32 - 24) ≠ 0 := by
  constructor
  · decide
  · decide
